import Mathlib

/-!
# Verification of the lowcode-database dynamic schema and row engine

This file gives a shallow embedding, in Lean, of the core of the
`lowcode-database` Go service: the metadata catalog (`lc_types`,
`lc_tables`, `lc_columns`), the row data mapper (`CreateRow`, `UpdateRow`,
`DeleteRow`, `ListRows`, `BulkUpsertRows`), the relationship-expansion
resolver, the dynamic DDL path (`CreateTable`, `AddColumn`), the tenant
pool manager, and the migration runner.  Every definition is translated
from the corresponding Go function; theorems at the end of the file settle
the specification claims against these definitions.

Modelling conventions:
* protobuf scalar numbers (Go `float64`) are carried by `Int` — no claim
  here depends on floating-point arithmetic;
* timestamps are carried by an `Int` instant;
* a SQL `NULL` cell is an absent key in a row's association list, or the
  explicit `GoVal.null` produced by converting an empty value union;
* database statements that the backend could reject are driven by an
  explicit failure oracle where a claim depends on failure behaviour.
-/

namespace LowcodeDB

/-- A generic structured-JSON document, the carrier of `structpb.Struct` /
`structpb.Value` payloads and of the JSONB `config` objects in the catalog. -/
inductive Json where
  | str (s : String)
  | num (x : Int)
  | bool (b : Bool)
  | arr (xs : List Json)
  | obj (fields : List (String × Json))
  | null
  deriving Repr, Inhabited

/-- The typed value union of the API (`lowcodev1.Value`): string / number /
boolean / timestamp / bytes / structured JSON, plus the empty (unset) kind. -/
inductive Value where
  | stringValue (s : String)
  | numberValue (x : Int)
  | boolValue (b : Bool)
  | timestampValue (t : Int)
  | bytesValue (bs : List Nat)
  | jsonValue (j : Json)
  | nullValue
  deriving Repr, Inhabited

/-- A backend-native Go scalar as seen by the pgx driver: the possible
results of `valueToAny` and the possible scan results modelled here. -/
inductive GoVal where
  | str (s : String)
  | num (x : Int)
  | bool (b : Bool)
  | time (t : Int)
  | bytes (bs : List Nat)
  | jsonMap (j : Json)
  | null
  deriving Repr, Inhabited

/-- `valueToAny` converts a protobuf `Value` into a Go value handed to the
backend (`internal/service` shared helpers). The default branch of the Go
switch returns `nil`. -/
def valueToAny : Value → GoVal
  | .stringValue s => .str s
  | .numberValue x => .num x
  | .boolValue b => .bool b
  | .timestampValue t => .time t
  | .bytesValue bs => .bytes bs
  | .jsonValue j => .jsonMap j
  | .nullValue => .null

/-- A concrete rendering standing for Go's `fmt.Sprint` on a backend value
(the fallback branch of `anyToValue`). Only the fact that the result is a
string matters to the claims. -/
def goRender : GoVal → String
  | .str s => s
  | .num x => toString x
  | .bool b => toString b
  | .time t => "time:" ++ toString t
  | .bytes bs => "bytes:" ++ toString bs
  | .jsonMap _ => "map[...]"
  | .null => "<nil>"

/-- `anyToValue` converts a backend value returned by a read into a protobuf
`Value`. Strings, bytes, booleans and numbers are recognized; anything else
falls back to a string rendering (`fmt.Sprint`). -/
def anyToValue : GoVal → Value
  | .str s => .stringValue s
  | .bytes bs => .bytesValue bs
  | .bool b => .boolValue b
  | .num x => .numberValue x
  | v => .stringValue (goRender v)

/-- The backend round trip a stored cell undergoes between `CreateRow` and a
subsequent `ListRows` scan. -/
def roundTrip (v : Value) : Value := anyToValue (valueToAny v)

/-! ## Metadata catalog (`lc_types`, `lc_tables`, `lc_columns`) -/

/-- A row of `lc_types`. -/
structure LcType where
  id : String
  name : String
  pgType : String
  config : Json
  deriving Repr, Inhabited

/-- A row of `lc_tables`. -/
structure LcTable where
  id : String
  name : String
  schemaName : String
  tableName : String
  deriving Repr, Inhabited

/-- A row of `lc_columns`. -/
structure LcColumn where
  id : String
  tableId : String
  name : String
  typeId : String
  pgColumn : String
  isNullable : Bool
  position : Int
  config : Json
  deriving Repr, Inhabited

/-- The per-tenant catalog state the services query. -/
structure Catalog where
  types : List LcType
  tables : List LcTable
  columns : List LcColumn
  deriving Repr, Inhabited

/-- `COALESCE(config->>'kind', '')`: the `kind` discriminator of a type's
JSONB config, the empty string when missing or not a string. -/
def jsonKind : Json → String
  | .obj fields =>
    match fields.lookup "kind" with
    | some (.str s) => s
    | _ => ""
  | _ => ""

/-- A type kind marking a virtual (non-materialized) column. -/
def isVirtualKind (k : String) : Bool := k == "formula" || k == "relationship"

/-- Whether a column survives the `loadColumns` join: its type exists and its
kind is not `formula`/`relationship`. -/
def columnIsData (cat : Catalog) (c : LcColumn) : Bool :=
  match cat.types.find? (fun ty => ty.id == c.typeId) with
  | some ty => !(isVirtualKind (jsonKind ty.config))
  | none => false

/-- `ORDER BY position` on columns. -/
def posLe (a b : LcColumn) : Prop := a.position ≤ b.position

instance : DecidableRel posLe := fun a b => inferInstanceAs (Decidable (a.position ≤ b.position))

/-- The non-virtual columns of a table, ordered by position — the column list
produced by `loadColumns` in the Go row mapper. -/
def dataColumns (cat : Catalog) (tableId : String) : List LcColumn :=
  List.insertionSort posLe
    (cat.columns.filter (fun c => c.tableId == tableId && columnIsData cat c))

/-- The physical location (`schema_name`, `table_name`) delivered by the
`loadColumns` join: scanned alongside each column row, hence the empty pair
when the table has no data columns. -/
def loadColumnsTable (cat : Catalog) (tableId : String) : String × String :=
  if (dataColumns cat tableId).isEmpty then ("", "")
  else
    match cat.tables.find? (fun t => t.id == tableId) with
    | some t => (t.schemaName, t.tableName)
    | none => ("", "")

/-! ## Physical user tables and the row data mapper -/

/-- Computable byte-wise lexicographic order on character lists, the model of
the backend's `ORDER BY id` collation. -/
def charsLe : List Char → List Char → Bool
  | [], _ => true
  | _ :: _, [] => false
  | a :: as, b :: bs =>
    if a.toNat < b.toNat then true
    else if b.toNat < a.toNat then false
    else charsLe as bs

/-- `ORDER BY id` as a relation on strings. -/
def idLe (s t : String) : Prop := charsLe s.data t.data = true

instance : DecidableRel idLe := fun s t => inferInstanceAs (Decidable (charsLe s.data t.data = true))

/-- A row of a physical user table: the system id plus an association list
from physical column name to stored backend value.  A column absent from the
list is `NULL`; `GoVal.null` also denotes a stored `NULL`. -/
structure PhysRow where
  id : String
  cells : List (String × GoVal)
  deriving Repr, Inhabited

/-- `ORDER BY id` on physical rows. -/
def rowIdLe (a b : PhysRow) : Prop := idLe a.id b.id

instance : DecidableRel rowIdLe := fun a b => inferInstanceAs (Decidable (idLe a.id b.id))

/-- A physical table read back in `ORDER BY id` order. -/
def sortById (rows : List PhysRow) : List PhysRow := List.insertionSort rowIdLe rows

/-- The physical databases' user tables, keyed by (schema name, table name). -/
def PhysDB := List ((String × String) × List PhysRow)

/-- Rows of the physical table at a location (empty when absent). -/
def physRows (db : PhysDB) (loc : String × String) : List PhysRow :=
  match List.lookup loc db with
  | some rows => rows
  | none => []

/-- Replace the rows stored at a location. -/
def physStore (db : PhysDB) (loc : String × String) (rows : List PhysRow) : PhysDB :=
  match db with
  | [] => [(loc, rows)]
  | (l, rs) :: rest =>
    if l == loc then (l, rows) :: rest else (l, rs) :: physStore rest loc rows

/-- Insert-or-replace a binding in an association list (a Go map write). -/
def upsertAssoc {β : Type} (kvs : List (String × β)) (k : String) (v : β) :
    List (String × β) :=
  match kvs with
  | [] => [(k, v)]
  | (k1, v1) :: rest =>
    if k1 == k then (k1, v) :: rest else (k1, v1) :: upsertAssoc rest k v

/-- The cells of a request that match known non-virtual columns, as the
(physical column, converted value) pairs the INSERT / UPDATE statement uses.
This is the per-column matching loop shared by `CreateRow`, `UpdateRow` and
`BulkUpsertRows`. -/
def matchedCells (cols : List LcColumn) (cells : List (String × Value)) :
    List (String × GoVal) :=
  cols.filterMap (fun c => (cells.lookup c.id).map (fun v => (c.pgColumn, valueToAny v)))

/-- Apply an UPDATE's SET list to one physical row. -/
def setCells (r : PhysRow) (sets : List (String × GoVal)) : PhysRow :=
  { r with cells := sets.foldl (fun acc kv => upsertAssoc acc kv.1 kv.2) r.cells }

/-- `UPDATE ... WHERE id = rowId` over a physical table: every matching row is
updated; zero matching rows is not an error. -/
def updateById (rows : List PhysRow) (rowId : String) (sets : List (String × GoVal)) :
    List PhysRow :=
  rows.map (fun r => if r.id == rowId then setCells r sets else r)

/-- An API row: system id plus logical-column-id-keyed cells. -/
structure Row where
  id : String
  cells : List (String × Value)
  deriving Repr, Inhabited

/-- `CreateRow`: requires a table id and a non-empty cell map; keeps only the
cells keyed by known non-virtual column ids; fails when none match; inserts
exactly those physical columns with a fresh system-generated id; responds with
the generated id and the request cells as given. -/
def createRow (cat : Catalog) (db : PhysDB) (tableId : String)
    (cells : List (String × Value)) (freshId : String) :
    Except String (PhysDB × Row) :=
  if tableId == "" then .error "table_id is required"
  else
    let cols := dataColumns cat tableId
    let loc := loadColumnsTable cat tableId
    if cells.isEmpty then .error "cells is empty"
    else
      let matched := matchedCells cols cells
      if matched.isEmpty then .error "no valid cells for known columns"
      else
        let rows := physRows db loc
        .ok (physStore db loc (rows ++ [⟨freshId, matched⟩]), ⟨freshId, cells⟩)

/-- `UpdateRow`: exact-id update; same cell-matching rule as `CreateRow`;
issues `UPDATE ... WHERE id = rowId` without checking how many rows matched
and responds with the request's row id and cells. -/
def updateRow (cat : Catalog) (db : PhysDB) (tableId rowId : String)
    (cells : List (String × Value)) : Except String (PhysDB × Row) :=
  if tableId == "" || rowId == "" then .error "table_id and row_id are required"
  else
    let cols := dataColumns cat tableId
    let loc := loadColumnsTable cat tableId
    if cells.isEmpty then .error "cells is empty"
    else
      let matched := matchedCells cols cells
      if matched.isEmpty then .error "no valid cells for known columns"
      else
        .ok (physStore db loc (updateById (physRows db loc) rowId matched),
             ⟨rowId, cells⟩)

/-- `DeleteRow`: deletes by id with no existence check. -/
def deleteRow (cat : Catalog) (db : PhysDB) (tableId rowId : String) :
    Except String PhysDB :=
  if tableId == "" || rowId == "" then .error "table_id and row_id are required"
  else
    let loc := loadColumnsTable cat tableId
    .ok (physStore db loc ((physRows db loc).filter (fun r => !(r.id == rowId))))

/-- The `ListRows` scan of one physical row: `NULL` backend values produce no
cell at all; every other value goes through `anyToValue`. -/
def scanRow (cols : List LcColumn) (r : PhysRow) : Row :=
  { id := r.id,
    cells := cols.filterMap (fun c =>
      match r.cells.lookup c.pgColumn with
      | none => none
      | some .null => none
      | some gv => some (c.id, anyToValue gv)) }

/-- The effective LIMIT computed by `ListRows` from the requested page size
and the configured `maxRow` (`MAX_ROW`): non-positive requests fall back to
the configured value, or to 50 when unconfigured; requests above the
configured maximum are clamped to it, or to the hard cap 100 when
unconfigured. -/
def effectivePageSize (maxRow requested : Int) : Int :=
  let pageSize := if requested ≤ 0 then (if 0 < maxRow then maxRow else 50) else requested
  if 0 < maxRow ∧ maxRow < pageSize then maxRow
  else if maxRow ≤ 0 ∧ 100 < pageSize then 100
  else pageSize

/-- `ListRows` without relationship expansion: unconditioned, ordered by
system id ascending, limited to the effective page size; a table with no
data columns yields an empty response. -/
def listRows (cat : Catalog) (db : PhysDB) (tableId : String)
    (requested maxRow : Int) : Except String (List Row) :=
  if tableId == "" then .error "table_id is required"
  else
    let cols := dataColumns cat tableId
    if cols.isEmpty then .ok []
    else
      let loc := loadColumnsTable cat tableId
      let pageSize := effectivePageSize maxRow requested
      .ok (((sortById (physRows db loc)).take pageSize.toNat).map (scanRow cols))

/-! ## Bulk upsert (`BulkUpsertRows`) -/

/-- One item of a bulk upsert request; an empty row id means insert. -/
structure UpsertItem where
  rowId : String
  cells : List (String × Value)
  deriving Repr, Inhabited

/-- A statement issued inside the bulk transaction; the failure oracle below
decides which of these the backend rejects. -/
inductive Stmt where
  | ins (loc : String × String) (sets : List (String × GoVal))
  | upd (loc : String × String) (sets : List (String × GoVal)) (rowId : String)
  deriving Repr, Inhabited

/-- The per-item loop of `BulkUpsertRows`, run against the transaction's view
of the physical table.  `fail` is the backend's verdict on each statement;
`freshIds k` is the system-generated id of the k-th inserted row.  State:
(transaction table, response rows, inserts so far). -/
def bulkLoop (cols : List LcColumn) (loc : String × String) (fail : Stmt → Bool)
    (freshIds : Nat → String) :
    List UpsertItem → List PhysRow × List Row × Nat →
    Except String (List PhysRow × List Row × Nat)
  | [], st => .ok st
  | item :: rest, (tx, resps, k) =>
    let matched := matchedCells cols item.cells
    if item.rowId == "" then
      if matched.isEmpty then bulkLoop cols loc fail freshIds rest (tx, resps, k)
      else if fail (.ins loc matched) then .error "insert failed"
      else
        bulkLoop cols loc fail freshIds rest
          (tx ++ [⟨freshIds k, matched⟩], resps ++ [⟨freshIds k, item.cells⟩], k + 1)
    else
      if matched.isEmpty then bulkLoop cols loc fail freshIds rest (tx, resps, k)
      else if fail (.upd loc matched item.rowId) then .error "update failed"
      else
        bulkLoop cols loc fail freshIds rest
          (updateById tx item.rowId matched, resps ++ [⟨item.rowId, item.cells⟩], k)

/-- `BulkUpsertRows`: requires a table id and at least one data column; runs
every item inside one transaction; items with no matching cells are skipped;
the first failing statement aborts the whole call. -/
def bulkUpsertRows (cat : Catalog) (db : PhysDB) (tableId : String)
    (fail : Stmt → Bool) (freshIds : Nat → String) (items : List UpsertItem) :
    Except String (PhysDB × List Row) :=
  if tableId == "" then .error "table_id is required"
  else
    let cols := dataColumns cat tableId
    if cols.isEmpty then .error "no columns for table"
    else
      let loc := loadColumnsTable cat tableId
      match bulkLoop cols loc fail freshIds items (physRows db loc, [], 0) with
      | .error e => .error e
      | .ok (tx, resps, _) => .ok (physStore db loc tx, resps)

/-- The physical database the caller observes after `BulkUpsertRows`: the
committed transaction on success, the original (rolled-back) state on any
error. -/
def bulkCommitted (cat : Catalog) (db : PhysDB) (tableId : String)
    (fail : Stmt → Bool) (freshIds : Nat → String) (items : List UpsertItem) :
    PhysDB :=
  match bulkUpsertRows cat db tableId fail freshIds items with
  | .ok (db2, _) => db2
  | .error _ => db

/-! ## Relationship expansion -/

/-- `cfg[key].(string)` with the empty-string default used by
`loadRelationshipColumns`: the config entry when it is a string, else `""`. -/
def cfgString (config : Json) (key : String) : String :=
  match config with
  | .obj fields =>
    match fields.lookup key with
    | some (.str s) => s
    | _ => ""
  | _ => ""

/-- The link metadata of one relationship column. -/
structure RelationshipColumn where
  id : String
  targetTableId : String
  linkColumnId : String
  targetColumnId : String
  deriving Repr, Inhabited

/-- `loadRelationshipColumns`: of the requested column ids on a table, keep
those whose type kind is `relationship`, read the three config strings, and
drop any entry missing a target table id or missing both link configs. -/
def loadRelationshipColumns (cat : Catalog) (tableId : String)
    (columnIds : List String) : List RelationshipColumn :=
  if columnIds.isEmpty then []
  else
    (cat.columns.filter (fun c =>
        c.tableId == tableId && columnIds.contains c.id &&
        (match cat.types.find? (fun ty => ty.id == c.typeId) with
         | some ty => jsonKind ty.config == "relationship"
         | none => false))).filterMap (fun c =>
      let rc : RelationshipColumn :=
        { id := c.id,
          targetTableId := cfgString c.config "target_table_id",
          linkColumnId := cfgString c.config "link_column_id",
          targetColumnId := cfgString c.config "target_column_id" }
      if rc.targetTableId == "" then none
      else if rc.linkColumnId == "" && rc.targetColumnId == "" then none
      else some rc)

/-- The JSON value `structpb.NewStruct` produces for a raw backend cell value
placed in a related row's `cells` document.  (`time.Time` is not actually
representable by `structpb`; no claim depends on that case, it is rendered as
a string here.) -/
def goValToJson : GoVal → Json
  | .str s => .str s
  | .num x => .num x
  | .bool b => .bool b
  | .bytes bs => .str (goRender (.bytes bs))
  | .time t => .str (goRender (.time t))
  | .jsonMap j => j
  | .null => .null

/-- One related row rendered as the `{id, cells}` document attached to the
expansion result; `NULL` cells are omitted. -/
def renderRelated (targetCols : List LcColumn) (r : PhysRow) : Json :=
  .obj [("id", .str r.id),
        ("cells", .obj (targetCols.filterMap (fun c =>
          match r.cells.lookup c.pgColumn with
          | none => none
          | some .null => none
          | some gv => some (c.id, goValToJson gv))))]

/-- `fetchRelatedRows`: with a link column id configured (one-to-many),
select every target-table row whose value in the link column equals the
current row's id, ordered by id; otherwise read the current row's value for
the target column id as the related id (honoring only a non-empty string)
and select the single target row by id.  All degenerate cases — target table
with no data columns, unknown link column, empty or non-string target id —
yield the empty list. -/
def fetchRelatedRows (cat : Catalog) (db : PhysDB) (rel : RelationshipColumn)
    (currentRowId : String) (currentCells : List (String × Value)) : List Json :=
  let targetCols := dataColumns cat rel.targetTableId
  if targetCols.isEmpty then []
  else
    let loc := loadColumnsTable cat rel.targetTableId
    if !(rel.linkColumnId == "") then
      match cat.columns.find? (fun c => c.id == rel.linkColumnId) with
      | none => []
      | some linkCol =>
        let children := (physRows db loc).filter (fun r =>
          match r.cells.lookup linkCol.pgColumn with
          | some (.str s) => s == currentRowId
          | _ => false)
        ((sortById children).map (renderRelated targetCols))
    else
      let relatedId :=
        match currentCells.lookup rel.targetColumnId with
        | some (.stringValue s) => s
        | _ => ""
      if relatedId == "" then []
      else
        (((physRows db loc).filter (fun r => r.id == relatedId)).map
          (renderRelated targetCols))

/-- The structured-JSON value `ListRows` attaches under a relationship
column's id: `{ "rows": [...] }`, the list never null. -/
def relWrap (docs : List Json) : Value :=
  .jsonValue (.obj [("rows", .arr docs)])

/-- The per-row expansion step of `ListRows`: every loaded relationship
column attaches its related rows to the row's cell map. -/
def expandRow (cat : Catalog) (db : PhysDB) (tableId : String)
    (expandColumnIds : List String) (row : Row) : Row :=
  (loadRelationshipColumns cat tableId expandColumnIds).foldl
    (fun r rel =>
      let related := fetchRelatedRows cat db rel r.id r.cells
      { r with cells := upsertAssoc r.cells rel.id (relWrap related) })
    row

/-- `ListRows` with relationship expansion requested. -/
def listRowsExpanded (cat : Catalog) (db : PhysDB) (tableId : String)
    (requested maxRow : Int) (expandColumnIds : List String) :
    Except String (List Row) :=
  match listRows cat db tableId requested maxRow with
  | .error e => .error e
  | .ok rows =>
    if expandColumnIds.isEmpty then .ok rows
    else .ok (rows.map (expandRow cat db tableId expandColumnIds))

/-! ## CreateTable and the physical table name -/

/-- The physical table name generated by `CreateTable` in
`internal/service/table_service.go`: derived directly from the user-chosen
logical table name. -/
def physTableName (logicalName : String) : String := "lc_t_" ++ logicalName

/-- The physical table name generated by the alternate `CreateTable` revision
(the uuid-based variant): `lc_t_` followed by a fresh random identifier with
dashes removed, independent of the logical name. -/
def physTableNameUUID (freshUuid : String) : String :=
  "lc_t_" ++ (freshUuid.replace "-" "")

/-- The state `CreateTable` mutates: the set of existing physical tables and
the `lc_tables` catalog rows (name, schema, physical table). -/
structure TblState where
  physTables : List (String × String)
  lcTables : List (String × String × String)
  deriving Repr, Inhabited

/-- Whether a physical table exists at (schema, name). -/
def TblState.hasPhys (st : TblState) (loc : String × String) : Prop :=
  loc ∈ st.physTables

instance (st : TblState) (loc : String × String) : Decidable (st.hasPhys loc) :=
  inferInstanceAs (Decidable (loc ∈ st.physTables))

/-- The schema name used by `CreateTable`: `public` when unspecified. -/
def resolveSchema (schemaReq : String) : String :=
  if schemaReq == "" then "public" else schemaReq

/-- The shared transactional body of `CreateTable`: ensure the schema,
`CREATE TABLE` the physical table (failing when it already exists), insert
the catalog row (the catalog's `UNIQUE (schema_name, table_name)` also
rejects a duplicate), commit.  On failure nothing is committed. -/
def createTableWith (st : TblState) (logicalName schemaReq physTable : String) :
    Except String (TblState × String) :=
  let schemaName := resolveSchema schemaReq
  if st.hasPhys (schemaName, physTable) then
    .error "relation already exists"
  else
    .ok ({ physTables := st.physTables ++ [(schemaName, physTable)],
           lcTables := st.lcTables ++ [(logicalName, schemaName, physTable)] },
         physTable)

/-- `CreateTable` as in `table_service.go`: name derived from the logical
name. -/
def createTable (st : TblState) (logicalName schemaReq : String) :
    Except String (TblState × String) :=
  createTableWith st logicalName schemaReq (physTableName logicalName)

/-- `CreateTable` in the uuid-based revision: name derived from a fresh
random identifier. -/
def createTableUUID (st : TblState) (logicalName schemaReq freshUuid : String) :
    Except String (TblState × String) :=
  createTableWith st logicalName schemaReq (physTableNameUUID freshUuid)

/-! ## AddColumn and physical / placeholder column names -/

/-- The generated physical (or placeholder) column name of `AddColumn`:
`uuid.New().String()[:8]` with dashes removed, under the `c_` prefix for a
real column and the `v_` prefix for a virtual column's placeholder. -/
def pgColumnNameFor (isVirtual : Bool) (freshUuid : String) : String :=
  (if isVirtual then "v_" else "c_") ++ ((freshUuid.take 8).replace "-" "")

/-- The observable effect of one `AddColumn` for a resolved type kind: whether
the type is virtual, whether `ALTER TABLE ADD COLUMN` is issued, and the
recorded physical column name. -/
structure AddColumnEffect where
  isVirtual : Bool
  ddlIssued : Bool
  pgColumn : String
  deriving Repr, Inhabited

/-- `AddColumn`'s dispatch on the resolved type kind
(`internal/service/column_service.go`): virtual kinds skip the physical DDL
and record a `v_`-prefixed placeholder; all others issue the DDL and record a
`c_`-prefixed name. -/
def addColumnEffect (kind : String) (freshUuid : String) : AddColumnEffect :=
  let isVirtual := isVirtualKind kind
  { isVirtual := isVirtual,
    ddlIssued := !isVirtual,
    pgColumn := pgColumnNameFor isVirtual freshUuid }

/-- A sequence of `AddColumn` calls on one table, each with its resolved type
kind and its fresh identifier. -/
def addColumnSequence (calls : List (String × String)) : List AddColumnEffect :=
  calls.map (fun kv => addColumnEffect kv.1 kv.2)

/-! ## Tenant pool manager -/

/-- A per-tenant connection pool: its identity and whether the
metadata-schema bootstrap has been run against its database. -/
structure Pool where
  pid : Nat
  bootstrapped : Bool
  deriving Repr, DecidableEq, Inhabited

/-- The multi-tenant manager state: the shared tenant-to-pool map plus
counters of the externally visible provisioning effects (`CREATE DATABASE`
statements issued, bootstrap runs), and the pools closed by replacement.
The RW-mutex of the Go code serializes the lookup/create critical sections,
so a run under concurrent access is a sequence of these atomic steps. -/
structure TMState where
  pools : List (String × Pool)
  nextPool : Nat
  dbCreates : Nat
  bootstraps : Nat
  closed : List Nat
  deriving Repr, DecidableEq, Inhabited

/-- The manager state before any tenant access. -/
def TMState.initial : TMState :=
  { pools := [], nextPool := 0, dbCreates := 0, bootstraps := 0, closed := [] }

/-- `poolForTenant` (multi-tenant first access, double-checked locking): a
cached pool is returned as is; on a miss the winner opens a pool from the
templated DSN and publishes it.  Note that this path issues no
`CREATE DATABASE` and no bootstrap. -/
def poolForTenant (st : TMState) (tenantId : String) : TMState × Pool :=
  match st.pools.lookup tenantId with
  | some p => (st, p)
  | none =>
    let p : Pool := { pid := st.nextPool, bootstrapped := false }
    ({ st with pools := (tenantId, p) :: st.pools, nextPool := st.nextPool + 1 }, p)

/-- A sequence of `poolForTenant` calls (the serialization of N concurrent
callers); returns the final state and each caller's pool. -/
def poolForTenantMany (st : TMState) : List String → TMState × List Pool
  | [] => (st, [])
  | tid :: rest =>
    let (st1, p) := poolForTenant st tid
    let (st2, ps) := poolForTenantMany st1 rest
    (st2, p :: ps)

/-- `CreateTenant` (explicit provisioning): issues `CREATE DATABASE`
(idempotent against duplicates), opens a pool, runs the metadata bootstrap,
and publishes the pool, closing any previously cached one. -/
def createTenant (st : TMState) (tenantId : String) : TMState × Pool :=
  let p : Pool := { pid := st.nextPool, bootstrapped := true }
  let closed :=
    match st.pools.lookup tenantId with
    | some old => st.closed ++ [old.pid]
    | none => st.closed
  ({ pools := upsertAssoc st.pools tenantId p,
     nextPool := st.nextPool + 1,
     dbCreates := st.dbCreates + 1,
     bootstraps := st.bootstraps + 1,
     closed := closed }, p)

/-! ## Migrations -/

/-- The slice of a tenant database the migration runner touches: the ledger
table and its recorded versions, the core `lc_*` tables' existence, and the
`lc_types` seed rows as (name, pg_type, kind) triples. -/
structure MigState where
  ledgerExists : Bool
  ledger : List Nat
  coreTables : Bool
  typeRows : List (String × String × String)
  deriving Repr, DecidableEq, Inhabited

/-- A pristine tenant database. -/
def MigState.empty : MigState :=
  { ledgerExists := false, ledger := [], coreTables := false, typeRows := [] }

/-- `CREATE TABLE IF NOT EXISTS lc_schema_migrations`. -/
def ensureLedger (st : MigState) : MigState :=
  if st.ledgerExists then st else { st with ledgerExists := true, ledger := [] }

/-- `SELECT COALESCE(MAX(version), 0) FROM lc_schema_migrations`. -/
def maxVersion (ledger : List Nat) : Nat := ledger.foldr max 0

/-- `INSERT ... ON CONFLICT (name) DO NOTHING` for one seed type row. -/
def seedType (rows : List (String × String × String)) (row : String × String × String) :
    List (String × String × String) :=
  if rows.any (fun r => r.1 == row.1) then rows else rows ++ [row]

/-- The builtin scalar types seeded by migration step 1 — note the name of
the boolean type is `bool`. -/
def builtinTypeSeeds : List (String × String × String) :=
  [("text", "text", ""), ("number", "numeric", ""), ("bool", "boolean", ""),
   ("timestamp", "timestamptz", ""), ("json", "jsonb", "")]

/-- The virtual types seeded by migration step 2. -/
def virtualTypeSeeds : List (String × String × String) :=
  [("formula", "jsonb", "formula"), ("relationship", "jsonb", "relationship")]

/-- Migration step 1: create the core `lc_*` tables if missing and seed the
builtin scalar types idempotently. -/
def stepInitCore (st : MigState) : MigState :=
  { st with coreTables := true,
            typeRows := builtinTypeSeeds.foldl seedType st.typeRows }

/-- Migration step 2: seed the `formula` / `relationship` virtual types
idempotently. -/
def stepSeedVirtualTypes (st : MigState) : MigState :=
  { st with typeRows := virtualTypeSeeds.foldl seedType st.typeRows }

/-- Record an applied migration version in the ledger. -/
def recordVersion (st : MigState) (v : Nat) : MigState :=
  { st with ledger := st.ledger ++ [v] }

/-- `Migrate`: ensure the ledger, read the highest applied version once, and
apply every step with a strictly higher version in ascending order, recording
each. -/
def migrate (st : MigState) : MigState :=
  let st1 := ensureLedger st
  let current := maxVersion st1.ledger
  let st2 := if 1 ≤ current then st1 else recordVersion (stepInitCore st1) 1
  let st3 := if 2 ≤ current then st2 else recordVersion (stepSeedVirtualTypes st2) 2
  st3

/-- The set of type names present after migration. -/
def MigState.typeNames (st : MigState) : List String := st.typeRows.map (fun r => r.1)

/-! ## Concrete fixtures for witnesses and counterexamples -/

/-- A builtin `text` type row. -/
def tyText : LcType := { id := "ty_text", name := "text", pgType := "text", config := .obj [] }

/-- A builtin `timestamp` type row. -/
def tyTs : LcType :=
  { id := "ty_ts", name := "timestamp", pgType := "timestamptz", config := .obj [] }

/-- The `relationship` virtual type row. -/
def tyRel : LcType :=
  { id := "ty_rel", name := "relationship", pgType := "jsonb",
    config := .obj [("kind", .str "relationship")] }

/-- A text column on table `t1`. -/
def colC1 : LcColumn :=
  { id := "c1", tableId := "t1", name := "name", typeId := "ty_text",
    pgColumn := "pg_c1", isNullable := true, position := 1, config := .obj [] }

/-- A timestamp column on table `t1`. -/
def colTs : LcColumn :=
  { id := "cts", tableId := "t1", name := "at", typeId := "ty_ts",
    pgColumn := "pg_cts", isNullable := true, position := 2, config := .obj [] }

/-- The catalog row of table `t1`. -/
def tblT1 : LcTable :=
  { id := "t1", name := "t1", schemaName := "public", tableName := "lc_t_t1" }

/-- The catalog row of table `t2`. -/
def tblT2 : LcTable :=
  { id := "t2", name := "t2", schemaName := "public", tableName := "lc_t_t2" }

/-- A one-text-column catalog. -/
def catEx : Catalog := { types := [tyText], tables := [tblT1], columns := [colC1] }

/-- A one-timestamp-column catalog. -/
def catTs : Catalog := { types := [tyTs], tables := [tblT1], columns := [colTs] }

/-- A text column on the child table `t2`. -/
def colChildTxt : LcColumn :=
  { id := "c2", tableId := "t2", name := "title", typeId := "ty_text",
    pgColumn := "pg_c2", isNullable := true, position := 1, config := .obj [] }

/-- The child table's link (foreign-key) column pointing at `t1` rows. -/
def colLink : LcColumn :=
  { id := "clink", tableId := "t2", name := "parent", typeId := "ty_text",
    pgColumn := "pg_link", isNullable := true, position := 2, config := .obj [] }

/-- A one-to-many relationship column on `t1` targeting `t2` via `clink`. -/
def colRel : LcColumn :=
  { id := "r1", tableId := "t1", name := "children", typeId := "ty_rel",
    pgColumn := "v_rel1", isNullable := true, position := 3,
    config := .obj [("target_table_id", .str "t2"), ("link_column_id", .str "clink")] }

/-- A relationship column on `t1` with a target table but neither link
config. -/
def colRelNoLinks : LcColumn :=
  { id := "r2", tableId := "t1", name := "dangling", typeId := "ty_rel",
    pgColumn := "v_rel2", isNullable := true, position := 4,
    config := .obj [("target_table_id", .str "t2")] }

/-- A many-to-one relationship column on `t1` whose target id is read from
column `c1`. -/
def colRelManyToOne : LcColumn :=
  { id := "r3", tableId := "t1", name := "owner", typeId := "ty_rel",
    pgColumn := "v_rel3", isNullable := true, position := 5,
    config := .obj [("target_table_id", .str "t2"), ("target_column_id", .str "c1")] }

/-- A catalog exercising relationship expansion. -/
def catRel : Catalog :=
  { types := [tyText, tyRel], tables := [tblT1, tblT2],
    columns := [colC1, colChildTxt, colLink, colRel, colRelNoLinks, colRelManyToOne] }

/-- A child-table row linked to parent row `row1`. -/
def childRow : PhysRow :=
  { id := "k1", cells := [("pg_c2", .str "hello"), ("pg_link", .str "row1")] }

/-- A physical database holding only the child table of `catRel`. -/
def dbRel : PhysDB := [(("public", "lc_t_t2"), [childRow])]

/-- The cell a `ListRows` scan reports for column key `x` of a row created
from `cells`: present exactly when `x` is a known non-virtual column id whose
supplied value converts to a non-`NULL` backend value, and then equal to the
backend round trip of the supplied value. -/
def listedCell (cols : List LcColumn) (cells : List (String × Value)) (x : String) :
    Option Value :=
  match cols.find? (fun c => c.id == x) with
  | some _ =>
    match cells.lookup x with
    | some v =>
      match valueToAny v with
      | GoVal.null => none
      | gv => some (anyToValue gv)
    | none => none
  | none => none

/-! ## Supporting lemmas -/

theorem charsLe_total (a b : List Char) : charsLe a b = true ∨ charsLe b a = true := by
  induction a generalizing b with
  | nil => left; rfl
  | cons x xs ih =>
    cases b with
    | nil => right; rfl
    | cons y ys =>
      by_cases h1 : x.toNat < y.toNat
      · left; simp [charsLe, h1]
      · by_cases h2 : y.toNat < x.toNat
        · right; simp [charsLe, h2]
        · rcases ih ys with h | h
          · left; simp [charsLe, h1, h2, h]
          · right; simp [charsLe, h1, h2, h]

theorem charsLe_trans {a b c : List Char} (hab : charsLe a b = true)
    (hbc : charsLe b c = true) : charsLe a c = true := by
  induction a generalizing b c with
  | nil => rfl
  | cons x xs ih =>
    cases b with
    | nil => simp [charsLe] at hab
    | cons y ys =>
      cases c with
      | nil => simp [charsLe] at hbc
      | cons z zs =>
        simp only [charsLe] at hab hbc ⊢
        by_cases hxy : x.toNat < y.toNat
        · by_cases hyz : y.toNat < z.toNat
          · have : x.toNat < z.toNat := Nat.lt_trans hxy hyz
            simp [this]
          · by_cases hzy : z.toNat < y.toNat
            · simp [hyz, hzy] at hbc
            · have hyzEq : y.toNat = z.toNat := Nat.le_antisymm (Nat.le_of_not_lt hzy) (Nat.le_of_not_lt hyz)
              have : x.toNat < z.toNat := hyzEq ▸ hxy
              simp [this]
        · by_cases hyx : y.toNat < x.toNat
          · simp [hxy, hyx] at hab
          · have hxyEq : x.toNat = y.toNat := Nat.le_antisymm (Nat.le_of_not_lt hyx) (Nat.le_of_not_lt hxy)
            by_cases hyz : y.toNat < z.toNat
            · have : x.toNat < z.toNat := hxyEq ▸ hyz
              simp [this]
            · by_cases hzy : z.toNat < y.toNat
              · simp [hyz, hzy] at hbc
              · have hyzEq : y.toNat = z.toNat := Nat.le_antisymm (Nat.le_of_not_lt hzy) (Nat.le_of_not_lt hyz)
                have hxz : ¬ x.toNat < z.toNat := by omega
                have hzx : ¬ z.toNat < x.toNat := by omega
                rw [if_neg hxy, if_neg hyx] at hab
                rw [if_neg hyz, if_neg hzy] at hbc
                rw [if_neg hxz, if_neg hzx]
                exact ih hab hbc

instance : IsTotal PhysRow rowIdLe :=
  ⟨fun a b => charsLe_total a.id.data b.id.data⟩

instance : IsTrans PhysRow rowIdLe :=
  ⟨fun _ _ _ hab hbc => charsLe_trans hab hbc⟩

/-- `sortById` is sorted by id. -/
theorem sortById_sorted (rows : List PhysRow) : List.Sorted rowIdLe (sortById rows) :=
  List.sorted_insertionSort rowIdLe rows

/-- `sortById` is a permutation of its input. -/
theorem sortById_perm (rows : List PhysRow) : (sortById rows).Perm rows :=
  List.perm_insertionSort rowIdLe rows

/-- Looking up a key produced by no element of a keyed `filterMap`. -/
theorem lookup_filterMap_of_not_mem {α β : Type} (kf : α → String) (xs : List α)
    (f : α → Option (String × β)) (hk : ∀ c p, f c = some p → p.1 = kf c)
    (x : String) (hx : ∀ c ∈ xs, kf c ≠ x) :
    (xs.filterMap f).lookup x = none := by
  induction xs with
  | nil => rfl
  | cons d rest ih =>
    have hd : kf d ≠ x := hx d (List.mem_cons_self d rest)
    have hrest : ∀ c ∈ rest, kf c ≠ x := fun c hc => hx c (List.mem_cons_of_mem d hc)
    cases hfd : f d with
    | none => simpa [List.filterMap_cons, hfd] using ih hrest
    | some p =>
      have hp : p.1 = kf d := hk d p hfd
      have : (x == p.1) = false := by
        rw [hp]
        exact beq_false_of_ne (fun h => hd h.symm)
      simpa [List.filterMap_cons, hfd, List.lookup, this] using ih hrest

/-- Characterization of association lookup over a keyed `filterMap` when the
keys are duplicate-free: the binding comes from the unique generating
element. -/
theorem lookup_filterMap {α β : Type} (kf : α → String) (xs : List α)
    (f : α → Option (String × β)) (hk : ∀ c p, f c = some p → p.1 = kf c)
    (hnd : (xs.map kf).Nodup) (x : String) :
    (xs.filterMap f).lookup x
      = (xs.find? (fun c => kf c == x)).bind (fun c => (f c).map Prod.snd) := by
  induction xs with
  | nil => rfl
  | cons d rest ih =>
    have hnd2 : (rest.map kf).Nodup := (List.nodup_cons.mp hnd).2
    have hdrest : kf d ∉ rest.map kf := (List.nodup_cons.mp hnd).1
    by_cases hdx : kf d = x
    · have hfind : (d :: rest).find? (fun c => kf c == x) = some d := by
        simp [List.find?_cons, hdx]
      rw [hfind]
      cases hfd : f d with
      | none =>
        have : ∀ c ∈ rest, kf c ≠ x := by
          intro c hc hcx
          exact hdrest (hdx ▸ hcx ▸ List.mem_map_of_mem kf hc)
        simp [List.filterMap_cons, hfd,
          lookup_filterMap_of_not_mem kf rest f hk x this]
      | some p =>
        have hp : p.1 = kf d := hk d p hfd
        have : (x == p.1) = true := by rw [hp, hdx]; exact beq_self_eq_true x
        simp [List.filterMap_cons, hfd, List.lookup, this]
    · have hfind : (d :: rest).find? (fun c => kf c == x)
          = rest.find? (fun c => kf c == x) := by
        simp [List.find?_cons, beq_false_of_ne hdx]
      rw [hfind, ← ih hnd2]
      cases hfd : f d with
      | none => simp [List.filterMap_cons, hfd]
      | some p =>
        have hp : p.1 = kf d := hk d p hfd
        have : (x == p.1) = false := by
          rw [hp]
          exact beq_false_of_ne (fun h => hdx h.symm)
        simp [List.filterMap_cons, hfd, List.lookup, this]

/-- In a duplicate-free keyed list, `find?` by a member's key returns that
member. -/
theorem find?_of_mem_nodup {α : Type} (kf : α → String) (xs : List α)
    (hnd : (xs.map kf).Nodup) (c : α) (hc : c ∈ xs) :
    xs.find? (fun d => kf d == kf c) = some c := by
  induction xs with
  | nil => cases hc
  | cons d rest ih =>
    have hnd2 : (rest.map kf).Nodup := (List.nodup_cons.mp hnd).2
    have hdrest : kf d ∉ rest.map kf := (List.nodup_cons.mp hnd).1
    rcases List.mem_cons.mp hc with h | h
    · subst h
      simp [List.find?_cons]
    · have hne : kf d ≠ kf c := by
        intro heq
        exact hdrest (heq ▸ List.mem_map_of_mem kf h)
      simp [List.find?_cons, beq_false_of_ne hne, ih hnd2 h]

/-- Lookup after an association insert-or-replace: the written key. -/
theorem lookup_upsertAssoc_self {β : Type} (kvs : List (String × β)) (k : String) (v : β) :
    (upsertAssoc kvs k v).lookup k = some v := by
  induction kvs with
  | nil => simp [upsertAssoc, List.lookup]
  | cons kv rest ih =>
    cases kv with
    | mk k1 v1 =>
      by_cases h : k1 = k
      · subst h
        simp [upsertAssoc, List.lookup]
      · simp [upsertAssoc, beq_false_of_ne h, List.lookup,
          beq_false_of_ne (fun hh => h hh.symm), ih]

/-- Lookup after an association insert-or-replace: other keys. -/
theorem lookup_upsertAssoc_other {β : Type} (kvs : List (String × β)) (k x : String)
    (v : β) (hx : x ≠ k) : (upsertAssoc kvs k v).lookup x = kvs.lookup x := by
  induction kvs with
  | nil => simp [upsertAssoc, List.lookup, beq_false_of_ne hx]
  | cons kv rest ih =>
    by_cases h : kv.1 = k
    · cases kv with
      | mk k1 v1 =>
        simp only at h
        subst h
        simp [upsertAssoc, List.lookup, beq_false_of_ne hx]
    · cases kv with
      | mk k1 v1 =>
        simp only at h
        simp [upsertAssoc, beq_false_of_ne h, List.lookup, ih]

/-- Reading back a just-stored physical table. -/
theorem physRows_physStore (db : PhysDB) (loc : String × String) (rows : List PhysRow) :
    physRows (physStore db loc rows) loc = rows := by
  induction db with
  | nil => simp [physStore, physRows, List.lookup]
  | cons kv rest ih =>
    by_cases h : kv.1 = loc
    · cases kv with
      | mk l rs =>
        simp only at h
        subst h
        simp [physStore, physRows, List.lookup]
    · cases kv with
      | mk l rs =>
        simp only at h
        simp [physStore, beq_false_of_ne h, physRows, List.lookup,
          beq_false_of_ne (fun hh => h hh.symm)] at ih ⊢
        exact ih

/-- A `v_`-prefixed name never equals a `c_`-prefixed name. -/
theorem v_name_ne_c_name (a b : String) : "v_" ++ a ≠ "c_" ++ b := by
  intro h
  have h2 := congrArg String.data h
  rw [String.data_append, String.data_append] at h2
  simp [String.data] at h2

theorem maxVersion_append (l : List Nat) (v : Nat) :
    maxVersion (l ++ [v]) = max (maxVersion l) v := by
  induction l with
  | nil => simp [maxVersion]
  | cons x xs ih => simp [maxVersion] at ih ⊢; omega

theorem maxVersion_append_ge (l m : List Nat) : maxVersion m ≤ maxVersion (l ++ m) := by
  induction l with
  | nil => simp
  | cons x xs ih => simp [maxVersion] at ih ⊢; omega

theorem ensureLedger_ledgerExists (st : MigState) :
    (ensureLedger st).ledgerExists = true := by
  simp only [ensureLedger]
  split <;> simp_all

theorem migrate_skip (st : MigState) (h1 : st.ledgerExists = true)
    (h2 : 2 ≤ maxVersion st.ledger) : migrate st = st := by
  have hens : ensureLedger st = st := by simp [ensureLedger, h1]
  simp only [migrate, hens]
  rw [if_pos (by omega : 1 ≤ maxVersion st.ledger), if_pos h2]

theorem migrate_post (st : MigState) :
    (migrate st).ledgerExists = true ∧ 2 ≤ maxVersion (migrate st).ledger := by
  simp only [migrate]
  by_cases h2 : 2 ≤ maxVersion (ensureLedger st).ledger
  · rw [if_pos (by omega : 1 ≤ maxVersion (ensureLedger st).ledger), if_pos h2]
    exact ⟨ensureLedger_ledgerExists st, h2⟩
  · rw [if_neg h2]
    constructor
    · by_cases h1 : 1 ≤ maxVersion (ensureLedger st).ledger
      · rw [if_pos h1]
        simpa [recordVersion, stepSeedVirtualTypes] using ensureLedger_ledgerExists st
      · rw [if_neg h1]
        simpa [recordVersion, stepSeedVirtualTypes, stepInitCore] using
          ensureLedger_ledgerExists st
    · by_cases h1 : 1 ≤ maxVersion (ensureLedger st).ledger
      · rw [if_pos h1]
        simp [recordVersion, stepSeedVirtualTypes, maxVersion_append]
      · rw [if_neg h1]
        simp only [recordVersion, stepSeedVirtualTypes, stepInitCore, List.append_assoc,
          List.singleton_append]
        exact le_trans (by norm_num [maxVersion]) (maxVersion_append_ge _ _)

/-! ## Claim theorems -/

/-- C5: for every `AddColumn` whose resolved type kind is `formula` or
`relationship`, no physical `ALTER TABLE ADD COLUMN` is issued, and the
recorded placeholder name is drawn from the `v_`-prefixed name space,
disjoint from the `c_`-prefixed space of generated physical column names, so
for any sequence of virtual and physical column additions a virtual column's
placeholder never equals a physical column's generated name. -/
theorem addColumn_virtual_skips_ddl_and_names_disjoint
    (kind : String) (hk : kind = "formula" ∨ kind = "relationship") (u : String) :
    (addColumnEffect kind u).ddlIssued = false ∧
    (∀ calls : List (String × String), ∀ e1 ∈ addColumnSequence calls,
      ∀ e2 ∈ addColumnSequence calls,
      e1.isVirtual = true → e2.isVirtual = false → e1.pgColumn ≠ e2.pgColumn) := by
  constructor
  · rcases hk with rfl | rfl <;> rfl
  · intro calls e1 he1 e2 he2 hv1 hv2
    obtain ⟨c1, hc1, rfl⟩ := List.mem_map.mp he1
    obtain ⟨c2, hc2, rfl⟩ := List.mem_map.mp he2
    have h1 : isVirtualKind c1.1 = true := hv1
    have h2 : isVirtualKind c2.1 = false := hv2
    show (addColumnEffect c1.1 c1.2).pgColumn ≠ (addColumnEffect c2.1 c2.2).pgColumn
    simp only [addColumnEffect, pgColumnNameFor, h1, h2, if_true, if_false,
      Bool.false_eq_true, ite_true, ite_false]
    exact v_name_ne_c_name _ _

/-- C5 witness: instantiated at the `formula` kind and a concrete fresh
identifier. -/
theorem addColumn_virtual_skips_ddl_and_names_disjoint_witness :
    ("formula" = "formula" ∨ "formula" = "relationship") ∧
    ((addColumnEffect "formula" "123e4567-e89b-12d3-a456-426614174000").ddlIssued = false ∧
     (∀ calls : List (String × String), ∀ e1 ∈ addColumnSequence calls,
       ∀ e2 ∈ addColumnSequence calls,
       e1.isVirtual = true → e2.isVirtual = false → e1.pgColumn ≠ e2.pgColumn)) :=
  ⟨Or.inl rfl,
   addColumn_virtual_skips_ddl_and_names_disjoint "formula" (Or.inl rfl)
     "123e4567-e89b-12d3-a456-426614174000"⟩

/-- C6: `ListRows` page-size handling — a non-positive requested size becomes
the configured `maxRow` (50 when unconfigured); a request above the
configured maximum is clamped to it (100 when unconfigured); the number of
rows returned never exceeds the effective cap. -/
theorem listRows_pageSize_clamped (maxRow requested : Int) :
    (requested ≤ 0 →
      effectivePageSize maxRow requested = if maxRow > 0 then maxRow else 50) ∧
    (0 < maxRow → maxRow < requested → effectivePageSize maxRow requested = maxRow) ∧
    (maxRow ≤ 0 → 100 < requested → effectivePageSize maxRow requested = 100) ∧
    (0 < maxRow → effectivePageSize maxRow requested ≤ maxRow) ∧
    (∀ (cat : Catalog) (db : PhysDB) (tid : String) (rows : List Row),
      listRows cat db tid requested maxRow = .ok rows →
      rows.length ≤ (effectivePageSize maxRow requested).toNat) := by
  refine ⟨?_, ?_, ?_, ?_, ?_⟩
  · intro h
    simp only [effectivePageSize]
    split_ifs <;> omega
  · intro h1 h2
    simp only [effectivePageSize]
    split_ifs <;> omega
  · intro h1 h2
    simp only [effectivePageSize]
    split_ifs <;> omega
  · intro h1
    simp only [effectivePageSize]
    split_ifs <;> omega
  · intro cat db tid rows hok
    simp only [listRows] at hok
    split at hok
    · exact absurd hok (by simp)
    · split at hok
      · cases hok
        simp
      · cases hok
        simp only [List.length_map]
        exact List.length_take_le _ _

/-- C6 witness: a configured maximum of 10 with an unspecified (0) request
yields 10; a request of 500 against maximum 10 is clamped to 10. -/
theorem listRows_pageSize_clamped_witness :
    ((0 : Int) ≤ 0 ∧ effectivePageSize 10 0 = 10) ∧
    ((0 : Int) < 10 ∧ (10 : Int) < 500 ∧ effectivePageSize 10 500 = 10) := by
  constructor
  · refine ⟨le_refl 0, ?_⟩
    have h := (listRows_pageSize_clamped 10 0).1 (by norm_num)
    simpa using h
  · exact ⟨by norm_num, by norm_num,
      (listRows_pageSize_clamped 10 500).2.1 (by norm_num) (by norm_num)⟩

/-- C8 counterexample: the seeded boolean builtin type is named `bool`, not
`boolean` as the claim states. -/
theorem migrate_boolean_name_counterexample :
    "boolean" ∉ (migrate MigState.empty).typeNames ∧
    "bool" ∈ (migrate MigState.empty).typeNames := by
  decide

/-- C8 (amended): re-running the migration sequence changes nothing — every
step at or below the recorded ledger version is skipped, and seeding inserts
the builtin scalar types named `text`, `number`, `bool`, `timestamp`, `json`
and the virtual types `formula` and `relationship` exactly once, by name, so
re-seeding is a no-op. -/
theorem migrate_idempotent_and_seeds :
    (∀ st : MigState, migrate (migrate st) = migrate st) ∧
    (∀ st : MigState, st.ledgerExists = true → 2 ≤ maxVersion st.ledger →
      migrate st = st) ∧
    (migrate MigState.empty).typeNames
      = ["text", "number", "bool", "timestamp", "json", "formula", "relationship"] ∧
    (migrate MigState.empty).typeNames.Nodup := by
  refine ⟨?_, ?_, rfl, by decide⟩
  · intro st
    exact migrate_skip (migrate st) (migrate_post st).1 (migrate_post st).2
  · intro st h1 h2
    exact migrate_skip st h1 h2

/-- C8 witness: the double run on a pristine catalog, and the skip behaviour
on an already-migrated ledger. -/
theorem migrate_idempotent_and_seeds_witness :
    migrate (migrate MigState.empty) = migrate MigState.empty ∧
    migrate ⟨true, [5], true, []⟩ = ⟨true, [5], true, []⟩ :=
  ⟨migrate_idempotent_and_seeds.1 MigState.empty,
   migrate_idempotent_and_seeds.2.1 ⟨true, [5], true, []⟩ rfl (by decide)⟩

/-- C1 counterexample: `CreateTable` derives the physical name from the
logical name (`lc_t_users`), so the generated name is not independent of the
logical name, and a second `CreateTable` with the same logical name maps to
the same physical name and fails instead of succeeding with a distinct
physical table. -/
theorem createTable_logical_name_collision_counterexample :
    physTableName "users" = "lc_t_users" ∧
    physTableName "users" ≠ physTableName "orders" ∧
    createTable ⟨[], []⟩ "users" ""
      = .ok (⟨[("public", "lc_t_users")], [("users", "public", "lc_t_users")]⟩,
             "lc_t_users") ∧
    createTable ⟨[("public", "lc_t_users")], [("users", "public", "lc_t_users")]⟩
        "users" ""
      = .error "relation already exists" := by
  refine ⟨rfl, ?_, rfl, rfl⟩
  decide

/-- C1 (amended): `CreateTable` in `table_service.go` names the physical
table `lc_t_<logical name>` — dependent on the logical name — so a second
call with the same logical name and schema fails with a duplicate-relation
error; only the uuid-based `CreateTable` revision derives the name from a
fresh random identifier, and there two calls with distinct fresh identifiers
(the second fresh for the current state) succeed with distinct physical
tables. -/
theorem createTable_name_scheme_amended :
    (∀ (st : TblState) (name schemaReq : String) (st1 : TblState) (pt : String),
      createTable st name schemaReq = .ok (st1, pt) →
      pt = "lc_t_" ++ name ∧
      createTable st1 name schemaReq = .error "relation already exists") ∧
    (∀ (st : TblState) (name1 name2 schemaReq u1 u2 : String)
       (st1 : TblState) (pt1 : String),
      createTableUUID st name1 schemaReq u1 = .ok (st1, pt1) →
      ¬ st.hasPhys (resolveSchema schemaReq, physTableNameUUID u2) →
      physTableNameUUID u2 ≠ physTableNameUUID u1 →
      ∃ st2 : TblState, createTableUUID st1 name2 schemaReq u2
          = .ok (st2, physTableNameUUID u2) ∧ physTableNameUUID u2 ≠ pt1) := by
  constructor
  · intro st name schemaReq st1 pt h
    simp only [createTable, createTableWith] at h
    split at h
    · exact absurd h (by simp)
    · cases h
      refine ⟨rfl, ?_⟩
      simp only [createTable, createTableWith]
      rw [if_pos ?_]
      exact List.mem_append_right _ (List.mem_singleton.mpr rfl)
  · intro st name1 name2 schemaReq u1 u2 st1 pt1 h hfresh hne
    simp only [createTableUUID, createTableWith] at h
    split at h
    · exact absurd h (by simp)
    · cases h
      have hmem2 : ¬ TblState.hasPhys
          ⟨st.physTables ++ [(resolveSchema schemaReq, physTableNameUUID u1)],
           st.lcTables ++ [(name1, resolveSchema schemaReq, physTableNameUUID u1)]⟩
          (resolveSchema schemaReq, physTableNameUUID u2) := by
        intro hmem
        simp only [TblState.hasPhys] at hmem
        rcases List.mem_append.mp hmem with hm | hm
        · exact hfresh hm
        · exact hne (congrArg Prod.snd (List.mem_singleton.mp hm))
      refine ⟨⟨(st.physTables ++ [(resolveSchema schemaReq, physTableNameUUID u1)]) ++
                 [(resolveSchema schemaReq, physTableNameUUID u2)],
               (st.lcTables ++ [(name1, resolveSchema schemaReq, physTableNameUUID u1)]) ++
                 [(name2, resolveSchema schemaReq, physTableNameUUID u2)]⟩, ?_, hne⟩
      simp only [createTableUUID, createTableWith]
      rw [if_neg hmem2]

/-- C1 witness: the amended behaviour at the concrete duplicate logical name
`users`. -/
theorem createTable_name_scheme_amended_witness :
    "lc_t_users" = "lc_t_" ++ "users" ∧
    createTable ⟨[("public", "lc_t_users")], [("users", "public", "lc_t_users")]⟩
        "users" "" = .error "relation already exists" :=
  createTable_name_scheme_amended.1 ⟨[], []⟩ "users" ""
    ⟨[("public", "lc_t_users")], [("users", "public", "lc_t_users")]⟩ "lc_t_users" rfl

/-- C2 counterexample: the multi-tenant first-access path (`poolForTenant`)
publishes a pool without issuing any `CREATE DATABASE` and without running
the metadata-schema bootstrap, and the pool every caller receives is not
bootstrapped. -/
theorem poolForTenant_counterexample :
    (poolForTenant TMState.initial "acme").1.dbCreates = 0 ∧
    (poolForTenant TMState.initial "acme").1.bootstraps = 0 ∧
    (poolForTenant TMState.initial "acme").2.bootstrapped = false ∧
    (poolForTenant TMState.initial "acme").1.pools.lookup "acme"
      = some { pid := 0, bootstrapped := false } :=
  ⟨rfl, rfl, rfl, rfl⟩

theorem poolForTenantMany_cached (st : TMState) (tid : String) (p : Pool)
    (h : st.pools.lookup tid = some p) (m : Nat) :
    poolForTenantMany st (List.replicate m tid) = (st, List.replicate m p) := by
  induction m with
  | zero => rfl
  | succ k ih => simp [List.replicate_succ, poolForTenantMany, poolForTenant, h, ih]

/-- C2 (amended): under N serialized first accesses to an unprovisioned
tenant, exactly one pool is created and published and every caller receives
that same pool; but the first-access path performs no database creation and
no bootstrap — those effects (one `CREATE DATABASE`, one bootstrap, a
bootstrapped published pool) belong to the explicit `CreateTenant` path
only. -/
theorem tenant_pool_first_access_amended :
    (∀ (st : TMState) (tid : String),
      (poolForTenant st tid).1.dbCreates = st.dbCreates ∧
      (poolForTenant st tid).1.bootstraps = st.bootstraps) ∧
    (∀ (st : TMState) (tid : String) (st1 : TMState) (p : Pool),
      poolForTenant st tid = (st1, p) →
      st1.pools.lookup tid = some p ∧ poolForTenant st1 tid = (st1, p)) ∧
    (∀ (st : TMState) (tid : String) (n : Nat),
      st.pools.lookup tid = none → 1 ≤ n →
      (poolForTenantMany st (List.replicate n tid)).1.nextPool = st.nextPool + 1 ∧
      ∀ p ∈ (poolForTenantMany st (List.replicate n tid)).2,
        p = { pid := st.nextPool, bootstrapped := false }) ∧
    (∀ (st : TMState) (tid : String),
      (createTenant st tid).1.dbCreates = st.dbCreates + 1 ∧
      (createTenant st tid).1.bootstraps = st.bootstraps + 1 ∧
      (createTenant st tid).2.bootstrapped = true ∧
      (createTenant st tid).1.pools.lookup tid = some (createTenant st tid).2) := by
  refine ⟨?_, ?_, ?_, ?_⟩
  · intro st tid
    cases h : st.pools.lookup tid <;> simp [poolForTenant, h]
  · intro st tid st1 p h
    cases hl : st.pools.lookup tid with
    | some q =>
      simp only [poolForTenant, hl] at h
      cases h
      exact ⟨hl, by simp [poolForTenant, hl]⟩
    | none =>
      simp only [poolForTenant, hl] at h
      cases h
      constructor
      · simp [List.lookup]
      · simp [poolForTenant, List.lookup]
  · intro st tid n hl hn
    rcases Nat.exists_eq_add_of_le hn with ⟨k, rfl⟩
    rw [Nat.add_comm 1 k]
    simp only [List.replicate_succ, poolForTenantMany, poolForTenant, hl]
    rw [poolForTenantMany_cached _ tid { pid := st.nextPool, bootstrapped := false }
      (by simp [List.lookup]) k]
    constructor
    · rfl
    · intro p hp
      rcases List.mem_cons.mp hp with h | h
      · exact h
      · exact List.eq_of_mem_replicate h
  · intro st tid
    exact ⟨rfl, rfl, rfl, by simp [createTenant, lookup_upsertAssoc_self]⟩

/-- C2 witness: three serialized first accesses by tenant `acme` on the
initial state create exactly one pool and every caller sees it. -/
theorem tenant_pool_first_access_amended_witness :
    TMState.initial.pools.lookup "acme" = none ∧ 1 ≤ 3 ∧
    (poolForTenantMany TMState.initial (List.replicate 3 "acme")).1.nextPool
      = TMState.initial.nextPool + 1 ∧
    ∀ p ∈ (poolForTenantMany TMState.initial (List.replicate 3 "acme")).2,
      p = { pid := TMState.initial.nextPool, bootstrapped := false } := by
  have h := tenant_pool_first_access_amended.2.2.1 TMState.initial "acme" 3 rfl
    (by norm_num)
  exact ⟨rfl, by norm_num, h.1, h.2⟩

theorem updateById_of_absent (rows : List PhysRow) (rowId : String)
    (sets : List (String × GoVal)) (h : ∀ r ∈ rows, r.id ≠ rowId) :
    updateById rows rowId sets = rows := by
  induction rows with
  | nil => rfl
  | cons r rest ih =>
    have h1 : r.id ≠ rowId := h r (List.mem_cons_self r rest)
    simp only [updateById, List.map_cons, beq_false_of_ne h1, Bool.false_eq_true,
      if_false]
    rw [show rest.map (fun q => if q.id == rowId then setCells q sets else q)
        = updateById rest rowId sets from rfl,
      ih (fun q hq => h q (List.mem_cons_of_mem r hq))]

theorem filter_ne_of_absent (rows : List PhysRow) (rowId : String)
    (h : ∀ r ∈ rows, r.id ≠ rowId) :
    rows.filter (fun r => !(r.id == rowId)) = rows :=
  List.filter_eq_self.mpr (fun r hr => by simp [beq_false_of_ne (h r hr)])

/-- C9 counterexample: `UpdateRow` on a row id that matches zero rows (the
physical table is empty) reports success — absence is not surfaced as a
not-found condition. -/
theorem updateRow_absent_row_reports_success :
    updateRow catEx [] "t1" "r9" [("c1", Value.stringValue "x")]
      = .ok ([(("public", "lc_t_t1"), [])],
             ⟨"r9", [("c1", Value.stringValue "x")]⟩) ∧
    physRows ([] : PhysDB) ("public", "lc_t_t1") = [] :=
  ⟨rfl, rfl⟩

/-- C9 (amended): `UpdateRow` with non-empty matching cells issues an
unconditional UPDATE by id and reports success whether or not the row
exists; when the id matches zero rows the physical table is left unchanged,
and `DeleteRow` likewise treats absence as success. -/
theorem updateRow_delete_absence_amended
    (cat : Catalog) (db : PhysDB) (tid rowId : String)
    (cells : List (String × Value))
    (ht : (tid == "") = false) (hr : (rowId == "") = false)
    (hc : cells.isEmpty = false)
    (hm : (matchedCells (dataColumns cat tid) cells).isEmpty = false) :
    updateRow cat db tid rowId cells
      = .ok (physStore db (loadColumnsTable cat tid)
               (updateById (physRows db (loadColumnsTable cat tid)) rowId
                 (matchedCells (dataColumns cat tid) cells)),
             ⟨rowId, cells⟩) ∧
    ((∀ r ∈ physRows db (loadColumnsTable cat tid), r.id ≠ rowId) →
      updateById (physRows db (loadColumnsTable cat tid)) rowId
          (matchedCells (dataColumns cat tid) cells)
        = physRows db (loadColumnsTable cat tid)) ∧
    deleteRow cat db tid rowId
      = .ok (physStore db (loadColumnsTable cat tid)
          ((physRows db (loadColumnsTable cat tid)).filter
            (fun r => !(r.id == rowId)))) ∧
    ((∀ r ∈ physRows db (loadColumnsTable cat tid), r.id ≠ rowId) →
      (physRows db (loadColumnsTable cat tid)).filter (fun r => !(r.id == rowId))
        = physRows db (loadColumnsTable cat tid)) := by
  refine ⟨?_, ?_, ?_, ?_⟩
  · simp [updateRow, ht, hr, hc, hm]
  · intro habs
    exact updateById_of_absent _ _ _ habs
  · simp [deleteRow, ht, hr]
  · intro habs
    exact filter_ne_of_absent _ _ habs

/-- C9 witness: the amended behaviour at the concrete missing row id `r9`. -/
theorem updateRow_delete_absence_amended_witness :
    (("t1" == "") = false) ∧ (("r9" == "") = false) ∧
    ([("c1", Value.stringValue "x")].isEmpty = false) ∧
    ((matchedCells (dataColumns catEx "t1")
        [("c1", Value.stringValue "x")]).isEmpty = false) ∧
    (updateRow catEx [] "t1" "r9" [("c1", Value.stringValue "x")]).isOk = true := by
  refine ⟨rfl, rfl, rfl, rfl, ?_⟩
  rw [(updateRow_delete_absence_amended catEx [] "t1" "r9"
    [("c1", Value.stringValue "x")] rfl rfl rfl rfl).1]
  rfl

theorem scanRow_lookup_none_of_null (cols : List LcColumn) (pr : PhysRow)
    (hnd : (cols.map (fun c => c.id)).Nodup) (c : LcColumn) (hc : c ∈ cols)
    (hnull : pr.cells.lookup c.pgColumn = none ∨
      pr.cells.lookup c.pgColumn = some GoVal.null) :
    (scanRow cols pr).cells.lookup c.id = none := by
  have hkey : ∀ (d : LcColumn) (p : String × Value),
      (fun d : LcColumn =>
        match pr.cells.lookup d.pgColumn with
        | none => none
        | some GoVal.null => none
        | some gv => some (d.id, anyToValue gv)) d = some p → p.1 = d.id := by
    intro d p hp
    simp only at hp
    rcases hl : pr.cells.lookup d.pgColumn with _ | gv
    · rw [hl] at hp
      exact absurd hp (by simp)
    · rw [hl] at hp
      cases gv <;>
        first
          | exact Option.noConfusion hp
          | (injection hp with h1; rw [← h1])
  show (cols.filterMap (fun d : LcColumn =>
      match pr.cells.lookup d.pgColumn with
      | none => none
      | some GoVal.null => none
      | some gv => some (d.id, anyToValue gv))).lookup c.id = none
  rw [lookup_filterMap (fun c => c.id) cols _ hkey hnd c.id,
    find?_of_mem_nodup (fun c => c.id) cols hnd c hc]
  rcases hnull with hl | hl <;> simp [hl]

/-- C10: for every row returned by `ListRows`, a non-virtual column whose
stored backend value is `NULL` produces no entry at all in the returned cell
map — the column's key is absent. -/
theorem listRows_null_cells_absent
    (cat : Catalog) (db : PhysDB) (tid : String) (requested maxRow : Int)
    (rows : List Row)
    (hnd : ((dataColumns cat tid).map (fun c => c.id)).Nodup)
    (hok : listRows cat db tid requested maxRow = .ok rows) :
    ∀ r ∈ rows, ∃ pr : PhysRow, r = scanRow (dataColumns cat tid) pr ∧
      ∀ c ∈ dataColumns cat tid,
        (pr.cells.lookup c.pgColumn = none ∨
         pr.cells.lookup c.pgColumn = some GoVal.null) →
        r.cells.lookup c.id = none := by
  intro r hr
  simp only [listRows] at hok
  split at hok
  · exact absurd hok (by simp)
  · split at hok
    · cases hok
      cases hr
    · cases hok
      obtain ⟨pr, hpr, rfl⟩ := List.mem_map.mp hr
      exact ⟨pr, rfl, fun c hc hnull =>
        scanRow_lookup_none_of_null _ pr hnd c hc hnull⟩

/-- C10 witness: a one-column table holding a single row whose column is
`NULL`; the listed row has no entry for that column. -/
theorem listRows_null_cells_absent_witness :
    ((dataColumns catEx "t1").map (fun c => c.id)).Nodup ∧
    listRows catEx [(("public", "lc_t_t1"), [⟨"r1", []⟩])] "t1" 10 0
      = .ok [⟨"r1", []⟩] ∧
    ∀ r ∈ [(⟨"r1", []⟩ : Row)], ∃ pr : PhysRow,
      r = scanRow (dataColumns catEx "t1") pr ∧
      ∀ c ∈ dataColumns catEx "t1",
        (pr.cells.lookup c.pgColumn = none ∨
         pr.cells.lookup c.pgColumn = some GoVal.null) →
        r.cells.lookup c.id = none := by
  refine ⟨by decide, rfl, ?_⟩
  exact listRows_null_cells_absent catEx [(("public", "lc_t_t1"), [⟨"r1", []⟩])]
    "t1" 10 0 [⟨"r1", []⟩] (by decide) rfl

theorem bulkLoop_skip (cols : List LcColumn) (loc : String × String)
    (fail : Stmt → Bool) (freshIds : Nat → String) (item : UpsertItem)
    (hitem : (matchedCells cols item.cells).isEmpty = true) :
    ∀ (pre post : List UpsertItem) (st : List PhysRow × List Row × Nat),
      bulkLoop cols loc fail freshIds (pre ++ item :: post) st
        = bulkLoop cols loc fail freshIds (pre ++ post) st := by
  intro pre
  induction pre with
  | nil =>
    intro post st
    obtain ⟨tx, resps, k⟩ := st
    simp only [List.nil_append, bulkLoop, hitem]
    split <;> simp [hitem]
  | cons d rest ih =>
    intro post st
    obtain ⟨tx, resps, k⟩ := st
    simp only [List.cons_append, bulkLoop]
    split
    · split
      · exact ih post _
      · split
        · rfl
        · exact ih post _
    · split
      · exact ih post _
      · split
        · rfl
        · exact ih post _

/-- C3: `BulkUpsertRows` on a table with at least one data column runs inside
one transaction — any statement failure aborts the whole call and the
committed physical state is the original one; an item contributing zero
matching cells is silently skipped (it changes nothing and contributes no
response row); an item without a row id is inserted with a fresh
system-generated id and an item with a row id is updated by id. -/
theorem bulkUpsertRows_transactional
    (cat : Catalog) (db : PhysDB) (tid : String) (fail : Stmt → Bool)
    (freshIds : Nat → String)
    (htid : (tid == "") = false)
    (hcols : (dataColumns cat tid).isEmpty = false) :
    (∀ (items : List UpsertItem) (e : String),
      bulkUpsertRows cat db tid fail freshIds items = .error e →
      bulkCommitted cat db tid fail freshIds items = db) ∧
    (∀ (pre post : List UpsertItem) (item : UpsertItem),
      (matchedCells (dataColumns cat tid) item.cells).isEmpty = true →
      bulkUpsertRows cat db tid fail freshIds (pre ++ item :: post)
        = bulkUpsertRows cat db tid fail freshIds (pre ++ post)) ∧
    (∀ item : UpsertItem, item.rowId = "" →
      (matchedCells (dataColumns cat tid) item.cells).isEmpty = false →
      fail (.ins (loadColumnsTable cat tid)
        (matchedCells (dataColumns cat tid) item.cells)) = false →
      bulkUpsertRows cat db tid fail freshIds [item]
        = .ok (physStore db (loadColumnsTable cat tid)
                 (physRows db (loadColumnsTable cat tid)
                   ++ [⟨freshIds 0, matchedCells (dataColumns cat tid) item.cells⟩]),
               [⟨freshIds 0, item.cells⟩])) ∧
    (∀ item : UpsertItem, item.rowId ≠ "" →
      (matchedCells (dataColumns cat tid) item.cells).isEmpty = false →
      fail (.upd (loadColumnsTable cat tid)
        (matchedCells (dataColumns cat tid) item.cells) item.rowId) = false →
      bulkUpsertRows cat db tid fail freshIds [item]
        = .ok (physStore db (loadColumnsTable cat tid)
                 (updateById (physRows db (loadColumnsTable cat tid)) item.rowId
                   (matchedCells (dataColumns cat tid) item.cells)),
               [⟨item.rowId, item.cells⟩])) := by
  refine ⟨?_, ?_, ?_, ?_⟩
  · intro items e h
    simp only [bulkCommitted, h]
  · intro pre post item hskip
    simp only [bulkUpsertRows, htid, hcols, Bool.false_eq_true, if_false]
    rw [bulkLoop_skip (dataColumns cat tid) (loadColumnsTable cat tid) fail freshIds
      item hskip pre post _]
  · intro item h0 hm hf
    simp [bulkUpsertRows, bulkLoop, htid, hcols, h0, hm, hf]
  · intro item h0 hm hf
    simp [bulkUpsertRows, bulkLoop, htid, hcols, beq_false_of_ne h0, hm, hf]

/-- C3 witness: one insert item on a one-column table with a
nowhere-failing backend. -/
theorem bulkUpsertRows_transactional_witness :
    (("t1" == "") = false) ∧ ((dataColumns catEx "t1").isEmpty = false) ∧
    bulkUpsertRows catEx [] "t1" (fun _ => false) (fun _ => "n1")
        [⟨"", [("c1", Value.stringValue "x")]⟩]
      = .ok ([(("public", "lc_t_t1"), [⟨"n1", [("pg_c1", GoVal.str "x")]⟩])],
             [⟨"n1", [("c1", Value.stringValue "x")]⟩]) := by
  refine ⟨rfl, rfl, ?_⟩
  have h := (bulkUpsertRows_transactional catEx [] "t1" (fun _ => false)
    (fun _ => "n1") rfl rfl).2.2.1 ⟨"", [("c1", Value.stringValue "x")]⟩ rfl rfl rfl
  exact h.trans rfl

/-- C7 counterexample: a requested relationship column carrying a target
table id but neither a link column id nor a target column id is dropped by
`loadRelationshipColumns`, so expansion attaches nothing at all under its id
— not an empty list as the claim states. -/
theorem expansion_no_links_counterexample :
    loadRelationshipColumns catRel "t1" ["r2"] = [] ∧
    expandRow catRel dbRel "t1" ["r2"] ⟨"row1", []⟩ = ⟨"row1", []⟩ ∧
    (expandRow catRel dbRel "t1" ["r2"] ⟨"row1", []⟩).cells.lookup "r2" = none :=
  ⟨rfl, rfl, rfl⟩

/-- C7 (amended): a requested relationship column with a link column id
(one-to-many) attaches, under the column's id, a structured-JSON value
wrapping the `{id, cells}` documents of exactly the target-table rows whose
link column value equals the current row's id, ordered by id and never null;
a configured but unset many-to-one link (empty or non-string target-id cell)
attaches an empty list rather than an error; but a requested column that
resolves to no usable link metadata (in particular one missing both links)
is skipped entirely — no entry is attached. -/
theorem relationship_expansion_amended
    (cat : Catalog) (db : PhysDB) (tableId relColId : String)
    (rel : RelationshipColumn) (row : Row)
    (hload : loadRelationshipColumns cat tableId [relColId] = [rel]) :
    (∀ linkCol : LcColumn, ¬ rel.linkColumnId = "" →
      cat.columns.find? (fun c => c.id == rel.linkColumnId) = some linkCol →
      (dataColumns cat rel.targetTableId).isEmpty = false →
      ∃ l : List PhysRow,
        (expandRow cat db tableId [relColId] row).cells.lookup rel.id
          = some (relWrap (l.map (renderRelated (dataColumns cat rel.targetTableId)))) ∧
        l.Perm ((physRows db (loadColumnsTable cat rel.targetTableId)).filter
          (fun r => match r.cells.lookup linkCol.pgColumn with
                    | some (GoVal.str s) => s == row.id
                    | _ => false)) ∧
        List.Sorted rowIdLe l) ∧
    (rel.linkColumnId = "" →
      (∀ s, row.cells.lookup rel.targetColumnId = some (Value.stringValue s) →
        s = "") →
      (expandRow cat db tableId [relColId] row).cells.lookup rel.id
        = some (relWrap [])) ∧
    (∀ (ids : List String) (r2 : Row),
      loadRelationshipColumns cat tableId ids = [] →
      expandRow cat db tableId ids r2 = r2) := by
  have hexp : expandRow cat db tableId [relColId] row
      = { row with
          cells := (upsertAssoc row.cells rel.id
            (relWrap (fetchRelatedRows cat db rel row.id row.cells))) } := by
    simp only [expandRow, hload, List.foldl_cons, List.foldl_nil]
  refine ⟨?_, ?_, ?_⟩
  · intro linkCol hlink hfind hne
    have hfetch : fetchRelatedRows cat db rel row.id row.cells
        = (sortById ((physRows db (loadColumnsTable cat rel.targetTableId)).filter
            (fun r => match r.cells.lookup linkCol.pgColumn with
                      | some (GoVal.str s) => s == row.id
                      | _ => false))).map
            (renderRelated (dataColumns cat rel.targetTableId)) := by
      simp [fetchRelatedRows, hne, beq_false_of_ne hlink, hfind]
    refine ⟨sortById ((physRows db (loadColumnsTable cat rel.targetTableId)).filter
      (fun r => match r.cells.lookup linkCol.pgColumn with
                | some (GoVal.str s) => s == row.id
                | _ => false)), ?_, sortById_perm _, sortById_sorted _⟩
    rw [hexp]
    show (upsertAssoc row.cells rel.id _).lookup rel.id = _
    rw [lookup_upsertAssoc_self, hfetch]
  · intro hlink0 hunset
    have hrel : (match row.cells.lookup rel.targetColumnId with
        | some (Value.stringValue s) => s
        | _ => "") = "" := by
      rcases hl : row.cells.lookup rel.targetColumnId with _ | v
      · rfl
      · cases v <;> first | rfl | exact hunset _ hl
    have hfetch : fetchRelatedRows cat db rel row.id row.cells = [] := by
      by_cases hempty : (dataColumns cat rel.targetTableId).isEmpty = true
      · simp [fetchRelatedRows, hempty]
      · simp [fetchRelatedRows, hempty, hlink0, hrel]
    rw [hexp]
    show (upsertAssoc row.cells rel.id _).lookup rel.id = _
    rw [lookup_upsertAssoc_self, hfetch]
  · intro ids r2 hnone
    simp [expandRow, hnone]

/-- C7 witness: the one-to-many link of `catRel` expanded at parent row
`row1`, whose single child `k1` is attached as `{id, cells}` in a list. -/
theorem relationship_expansion_amended_witness :
    (loadRelationshipColumns catRel "t1" ["r1"]
      = [⟨"r1", "t2", "clink", ""⟩]) ∧
    (∃ l : List PhysRow,
      (expandRow catRel dbRel "t1" ["r1"] ⟨"row1", []⟩).cells.lookup "r1"
        = some (relWrap (l.map (renderRelated (dataColumns catRel "t2")))) ∧
      l.Perm ((physRows dbRel (loadColumnsTable catRel "t2")).filter
        (fun r => match r.cells.lookup colLink.pgColumn with
                  | some (GoVal.str s) => s == "row1"
                  | _ => false)) ∧
      List.Sorted rowIdLe l) := by
  refine ⟨rfl, ?_⟩
  exact (relationship_expansion_amended catRel dbRel "t1" "r1"
    ⟨"r1", "t2", "clink", ""⟩ ⟨"row1", []⟩ rfl).1 colLink (by decide) rfl rfl

theorem scanRow_cell_key (pr : PhysRow) :
    ∀ (d : LcColumn) (p : String × Value),
      (fun d : LcColumn =>
        match pr.cells.lookup d.pgColumn with
        | none => none
        | some GoVal.null => none
        | some gv => some (d.id, anyToValue gv)) d = some p → p.1 = d.id := by
  intro d p hp
  simp only at hp
  rcases hl : pr.cells.lookup d.pgColumn with _ | gv
  · rw [hl] at hp
    exact Option.noConfusion hp
  · rw [hl] at hp
    cases gv <;>
      first
        | exact Option.noConfusion hp
        | (injection hp with h1; rw [← h1])

theorem matchedCells_cell_key (cells : List (String × Value)) :
    ∀ (d : LcColumn) (p : String × GoVal),
      (fun d : LcColumn =>
        (cells.lookup d.id).map (fun v => (d.pgColumn, valueToAny v))) d = some p →
      p.1 = d.pgColumn := by
  intro d p hp
  simp only at hp
  rcases hl : cells.lookup d.id with _ | v
  · rw [hl] at hp
    exact Option.noConfusion hp
  · rw [hl] at hp
    injection hp with h1
    rw [← h1]

theorem matchedCells_nil (cols : List LcColumn) : matchedCells cols [] = [] := by
  induction cols with
  | nil => rfl
  | cons c cs ih =>
    simp only [matchedCells, List.filterMap_cons, List.lookup_nil, Option.map_none']
    exact ih

theorem one_le_effectivePageSize (maxRow requested : Int) :
    1 ≤ effectivePageSize maxRow requested := by
  simp only [effectivePageSize]
  split_ifs <;> omega

/-- Looking a created row's stored cells up by physical column name gives the
converted supplied value of that column (pg-column names duplicate-free). -/
theorem lookup_matchedCells (cols : List LcColumn) (cells : List (String × Value))
    (hndpg : (cols.map (fun c => c.pgColumn)).Nodup) (c : LcColumn) (hc : c ∈ cols) :
    (matchedCells cols cells).lookup c.pgColumn
      = (cells.lookup c.id).map valueToAny := by
  show (cols.filterMap (fun d : LcColumn =>
      (cells.lookup d.id).map (fun v => (d.pgColumn, valueToAny v)))).lookup c.pgColumn
    = (cells.lookup c.id).map valueToAny
  rw [lookup_filterMap (fun d => d.pgColumn) cols _ (matchedCells_cell_key cells)
      hndpg c.pgColumn,
    find?_of_mem_nodup (fun d => d.pgColumn) cols hndpg c hc]
  cases hcl : cells.lookup c.id <;> simp [hcl]

/-- The `ListRows` scan of a row just created from `cells` reports, for each
key, exactly `listedCell`. -/
theorem scanRow_created_lookup (cols : List LcColumn) (cells : List (String × Value))
    (freshId : String)
    (hndid : (cols.map (fun c => c.id)).Nodup)
    (hndpg : (cols.map (fun c => c.pgColumn)).Nodup) (x : String) :
    (scanRow cols ⟨freshId, matchedCells cols cells⟩).cells.lookup x
      = listedCell cols cells x := by
  show (cols.filterMap (fun d : LcColumn =>
      match (matchedCells cols cells).lookup d.pgColumn with
      | none => none
      | some GoVal.null => none
      | some gv => some (d.id, anyToValue gv))).lookup x
    = listedCell cols cells x
  rw [lookup_filterMap (fun d => d.id) cols _
    (scanRow_cell_key ⟨freshId, matchedCells cols cells⟩) hndid x]
  unfold listedCell
  cases hfx : cols.find? (fun c => c.id == x) with
  | none => simp
  | some c =>
    have hc : c ∈ cols := List.mem_of_find?_eq_some hfx
    have hcx : c.id = x := by simpa using List.find?_some hfx
    have hv := lookup_matchedCells cols cells hndpg c hc
    rw [← hcx]
    simp only [Option.some_bind]
    rw [hv]
    cases hcl : cells.lookup c.id with
    | none => simp
    | some v =>
      show Option.map Prod.snd
          (match some (valueToAny v) with
          | none => none
          | some GoVal.null => none
          | some gv => some (c.id, anyToValue gv))
        = (match valueToAny v with
          | GoVal.null => none
          | gv => some (anyToValue gv))
      cases hva : valueToAny v <;> rfl

/-- C4 counterexample: creating a row whose single supplied cell is a
timestamp value and then listing rows does not return exactly the supplied
cell — the stored temporal value is read back through the string fallback of
`anyToValue`, so the listed value is a string rendering, not the supplied
timestamp. -/
theorem createRow_listRows_timestamp_counterexample :
    createRow catTs [] "t1" [("cts", Value.timestampValue 5)] "r1"
      = .ok ([(("public", "lc_t_t1"), [⟨"r1", [("pg_cts", GoVal.time 5)]⟩])],
             ⟨"r1", [("cts", Value.timestampValue 5)]⟩) ∧
    listRows catTs [(("public", "lc_t_t1"), [⟨"r1", [("pg_cts", GoVal.time 5)]⟩])]
        "t1" 10 0
      = .ok [⟨"r1", [("cts", Value.stringValue "time:5")]⟩] ∧
    Value.stringValue "time:5" ≠ Value.timestampValue 5 := by
  refine ⟨rfl, rfl, ?_⟩
  intro h
  exact Value.noConfusion h

/-- C4 (amended): `CreateRow` with at least one cell keyed by a known
non-virtual column id succeeds, inserts exactly the matching cells and
responds with the cells as given; a subsequent `ListRows` on the previously
empty table returns that row's id with exactly the supplied keys for known
non-virtual columns (extra/unknown keys silently dropped) and the values
equal to the backend round trip of the supplied values — the identity for
string, number, boolean and bytes values (timestamp and structured-JSON
values come back as string renderings, and an empty value union is stored as
`NULL` and omitted); with no matching cell key `CreateRow` fails. -/
theorem createRow_listRows_roundtrip_amended
    (cat : Catalog) (db : PhysDB) (tid : String) (cells : List (String × Value))
    (freshId : String) (requested maxRow : Int)
    (htid : (tid == "") = false)
    (hndid : ((dataColumns cat tid).map (fun c => c.id)).Nodup)
    (hndpg : ((dataColumns cat tid).map (fun c => c.pgColumn)).Nodup)
    (hempty : physRows db (loadColumnsTable cat tid) = []) :
    ((matchedCells (dataColumns cat tid) cells).isEmpty = true →
      (createRow cat db tid cells freshId).isOk = false) ∧
    ((matchedCells (dataColumns cat tid) cells).isEmpty = false →
      ∃ db2 : PhysDB, createRow cat db tid cells freshId
          = .ok (db2, ⟨freshId, cells⟩) ∧
        ∃ r : Row, listRows cat db2 tid requested maxRow = .ok [r] ∧
          r.id = freshId ∧
          ∀ x : String, r.cells.lookup x = listedCell (dataColumns cat tid) cells x) ∧
    (∀ s, roundTrip (Value.stringValue s) = Value.stringValue s) ∧
    (∀ x, roundTrip (Value.numberValue x) = Value.numberValue x) ∧
    (∀ b, roundTrip (Value.boolValue b) = Value.boolValue b) ∧
    (∀ bs, roundTrip (Value.bytesValue bs) = Value.bytesValue bs) := by
  refine ⟨?_, ?_, fun s => rfl, fun x => rfl, fun b => rfl, fun bs => rfl⟩
  · intro hm
    simp only [createRow, htid, Bool.false_eq_true, if_false, hm, if_true]
    split <;> rfl
  · intro hm
    have hcells : cells.isEmpty = false := by
      cases cells with
      | nil => exact absurd hm (by simp [matchedCells_nil])
      | cons kv rest => rfl
    have hcols : (dataColumns cat tid).isEmpty = false := by
      cases hdc : dataColumns cat tid with
      | nil =>
        rw [hdc] at hm
        exact absurd hm (by simp [matchedCells])
      | cons c cs => rfl
    refine ⟨physStore db (loadColumnsTable cat tid)
      [⟨freshId, matchedCells (dataColumns cat tid) cells⟩], ?_, ?_⟩
    · simp [createRow, htid, hcells, hm, hempty]
    · refine ⟨scanRow (dataColumns cat tid)
        ⟨freshId, matchedCells (dataColumns cat tid) cells⟩, ?_, rfl, ?_⟩
      · have hone : 1 ≤ (effectivePageSize maxRow requested).toNat := by
          have := one_le_effectivePageSize maxRow requested
          omega
        simp only [listRows, htid, Bool.false_eq_true, if_false, hcols,
          physRows_physStore]
        rw [show sortById [⟨freshId, matchedCells (dataColumns cat tid) cells⟩]
            = [⟨freshId, matchedCells (dataColumns cat tid) cells⟩] from rfl]
        rw [List.take_of_length_le (by simpa using hone)]
        rfl
      · intro x
        exact scanRow_created_lookup (dataColumns cat tid) cells freshId hndid hndpg x

/-- C4 witness: the amended behaviour at a one-text-column table with the
single supplied cell `{c1: "x"}`. -/
theorem createRow_listRows_roundtrip_amended_witness :
    (("t1" == "") = false) ∧
    ((matchedCells (dataColumns catEx "t1")
        [("c1", Value.stringValue "x")]).isEmpty = false) ∧
    (∃ db2 : PhysDB, createRow catEx [] "t1" [("c1", Value.stringValue "x")] "r1"
        = .ok (db2, ⟨"r1", [("c1", Value.stringValue "x")]⟩) ∧
      ∃ r : Row, listRows catEx db2 "t1" 10 0 = .ok [r] ∧
        r.id = "r1" ∧
        ∀ x : String, r.cells.lookup x
          = listedCell (dataColumns catEx "t1") [("c1", Value.stringValue "x")] x) := by
  refine ⟨rfl, rfl, ?_⟩
  exact (createRow_listRows_roundtrip_amended catEx [] "t1"
    [("c1", Value.stringValue "x")] "r1" 10 0 rfl (by decide) (by decide) rfl).2.1 rfl

end LowcodeDB

